import Mathlib

/-!
Verification of the Kuzu-backed document store (`document_store.py`):
the typed-metadata codec (`_categorize_meta` and the meta reconstruction in
`filter_documents`), the filter compiler (`_build_filter_query`,
`_build_single_condition`, `_format_value`), and the CRUD orchestration
(`write_documents`, `delete_documents`, `count_documents`).

Python runtime values occurring as metadata / filter literals are modelled
by the inductive `PyValue`. Python floats are modelled as rationals: the
store never performs arithmetic on them, it only carries them between the
caller and the engine. Python dictionaries are modelled as association
lists with unique keys; `dictSet`/`dictUpdate` mirror `d[k] = v` and
`d.update(other)`, and `dictEq` mirrors Python's order-insensitive `==` on
dicts. The engine (Kuzu) is modelled through the store state: a list of
rows of the `documents` node table, with its PRIMARY KEY(id) constraint.
-/

namespace KuzuStore

/-- Model of the Python runtime values that can appear as metadata values
or filter literals: strings, ints, floats (as rationals), booleans, `None`
and lists. -/
inductive PyValue where
  | str (s : String)
  | int (i : Int)
  | float (q : Rat)
  | bool (b : Bool)
  | none
  | list (vs : List PyValue)

mutual

/-- Boolean structural equality on `PyValue` (Python `==` restricted to
the value forms the store handles). -/
def pyBeq : PyValue → PyValue → Bool
  | .str a, .str b => a == b
  | .int a, .int b => a == b
  | .float a, .float b => a == b
  | .bool a, .bool b => a == b
  | .none, .none => true
  | .list as, .list bs => pyBeqList as bs
  | _, _ => false

/-- Boolean structural equality on lists of `PyValue`. -/
def pyBeqList : List PyValue → List PyValue → Bool
  | [], [] => true
  | a :: as, b :: bs => pyBeq a b && pyBeqList as bs
  | _, _ => false

end

/-- Boolean equality on optional `PyValue`. -/
def optPyBeq : Option PyValue → Option PyValue → Bool
  | Option.none, Option.none => true
  | some a, some b => pyBeq a b
  | _, _ => false

/-- Python `isinstance(v, str)`. -/
def isinstance_str : PyValue → Bool
  | .str _ => true
  | _ => false

/-- Python `isinstance(v, int)`.  Note that in Python `bool` is a subclass
of `int`, so `isinstance(True, int)` is `True`. -/
def isinstance_int : PyValue → Bool
  | .int _ => true
  | .bool _ => true
  | _ => false

/-- Python `isinstance(v, float)`. -/
def isinstance_float : PyValue → Bool
  | .float _ => true
  | _ => false

/-- Python `isinstance(v, list)`. -/
def isinstance_list : PyValue → Bool
  | .list _ => true
  | _ => false

/-- Python `type(v).__name__`, as used in the error messages. -/
def pyTypeName : PyValue → String
  | .str _ => "str"
  | .int _ => "int"
  | .float _ => "float"
  | .bool _ => "bool"
  | .none => "NoneType"
  | .list _ => "list"

/-- A Python dict with string keys, modelled as an association list.
Well-formed dicts have pairwise distinct keys (`DictNodup`). -/
abbrev PyDict := List (String × PyValue)

/-- Dict lookup `d.get(k)`: first binding of the key wins (well-formed
dicts have at most one). -/
def dictLookup : PyDict → String → Option PyValue
  | [], _ => Option.none
  | p :: rest, k => if p.1 = k then some p.2 else dictLookup rest k

/-- Python `k in d`. -/
def dictContains : PyDict → String → Bool
  | [], _ => false
  | p :: rest, k => if p.1 = k then true else dictContains rest k

/-- Python `d[k] = v`: replace the binding in place if the key is present,
otherwise append it at the end (insertion order). -/
def dictSet (d : PyDict) (k : String) (v : PyValue) : PyDict :=
  if dictContains d k then d.map (fun p => if p.1 = k then (k, v) else p)
  else d ++ [(k, v)]

/-- Python `d.update(other)`: set every binding of `other` into `d`, in
order. -/
def dictUpdate (d other : PyDict) : PyDict :=
  other.foldl (fun acc p => dictSet acc p.1 p.2) d

/-- Python dict equality `d1 == d2`: order-insensitive pointwise equality
of the bindings. -/
def dictEq (d1 d2 : PyDict) : Bool :=
  d1.all (fun p => optPyBeq (dictLookup d2 p.1) (dictLookup d1 p.1)) &&
  d2.all (fun p => optPyBeq (dictLookup d1 p.1) (dictLookup d2 p.1))

/-- The keys of a dict are pairwise distinct (every real Python dict
satisfies this). -/
def DictNodup (d : PyDict) : Prop := (d.map Prod.fst).Nodup

instance (d : PyDict) : Decidable (DictNodup d) := by
  unfold DictNodup; infer_instance

/-- Left-biased choice on optional values, used to state which bucket a
decoded metadata value comes from. -/
def optOr (a b : Option PyValue) : Option PyValue :=
  match a with
  | some v => some v
  | Option.none => b

/-- A value whose Python `type` is exactly `str`, `int` or `float` (in
particular not `bool`, which has its own type even though it satisfies
`isinstance(-, int)`). -/
def is_scalar_value : PyValue → Bool
  | .str _ => true
  | .int _ => true
  | .float _ => true
  | _ => false

/-- One typed bucket built by `_categorize_meta`: the parallel
`{"key": [...], "value": [...]}` lists handed to the engine, which zips
them into a `MAP` column value. -/
structure TypedBucket where
  key : List String
  value : List PyValue

/-- The result of `_categorize_meta`: the three typed buckets, plus the
list of keys reported through `logger.warning` (the warning side channel
made explicit). -/
structure CategorizedMeta where
  meta_STRING : TypedBucket
  meta_INT : TypedBucket
  meta_FLOAT : TypedBucket
  warned : List String

/-- The empty `meta_dict` initialised at the top of `_categorize_meta`. -/
def emptyCategorized : CategorizedMeta :=
  { meta_STRING := ⟨[], []⟩, meta_INT := ⟨[], []⟩, meta_FLOAT := ⟨[], []⟩,
    warned := [] }

/-- One iteration of the `for key, value in meta.items()` loop of
`_categorize_meta`: the `isinstance` chain routes the pair into a bucket,
appending to that bucket's key/value lists; unsupported values produce a
warning. -/
def categorize_step (d : CategorizedMeta) (kv : String × PyValue) : CategorizedMeta :=
  if isinstance_str kv.2 then
    { d with meta_STRING := ⟨d.meta_STRING.key ++ [kv.1], d.meta_STRING.value ++ [kv.2]⟩ }
  else if isinstance_int kv.2 then
    { d with meta_INT := ⟨d.meta_INT.key ++ [kv.1], d.meta_INT.value ++ [kv.2]⟩ }
  else if isinstance_float kv.2 then
    { d with meta_FLOAT := ⟨d.meta_FLOAT.key ++ [kv.1], d.meta_FLOAT.value ++ [kv.2]⟩ }
  else
    { d with warned := d.warned ++ [kv.1] }

/-- `_categorize_meta`: partition the metadata mapping into the three
typed buckets by the runtime type of each value. -/
def categorize_meta (meta : PyDict) : CategorizedMeta :=
  meta.foldl categorize_step emptyCategorized

/-- The engine materialises a `MAP` column value from the parallel
key/value lists of a bucket: pairing them up positionally. -/
def bucket_pairs (b : TypedBucket) : PyDict :=
  b.key.zip b.value

/-- The metadata reconstruction in `filter_documents` (lines 308-316):
start from an empty dict and `update` with `meta_STRING`, then
`meta_INT`, then `meta_FLOAT`, each applied only if non-empty (the
Python truthiness guard on each map). -/
def decode_meta (ms mi mf : PyDict) : PyDict :=
  let meta : PyDict := []
  let meta := if ms.isEmpty then meta else dictUpdate meta ms
  let meta := if mi.isEmpty then meta else dictUpdate meta mi
  if mf.isEmpty then meta else dictUpdate meta mf

/-- Encoding followed by decoding: the three typed maps produced by
`_categorize_meta` (as materialised by the engine) fed back through the
reconstruction in `filter_documents`. -/
def roundtrip_meta (meta : PyDict) : PyDict :=
  let c := categorize_meta meta
  decode_meta (bucket_pairs c.meta_STRING) (bucket_pairs c.meta_INT)
    (bucket_pairs c.meta_FLOAT)

/-- A metadata value of a supported type: one the `isinstance` chain of
`_categorize_meta` routes into a bucket rather than dropping. -/
def supported_meta (v : PyValue) : Bool :=
  isinstance_str v || isinstance_int v || isinstance_float v

/-- Python `s.startswith(pre)`. -/
def py_startswith (s pre : String) : Bool :=
  pre.data.isPrefixOf s.data

/-- Python `s.upper()` (ASCII case mapping; every operator the compiler
accepts is ASCII). -/
def py_upper (s : String) : String :=
  String.mk (s.data.map Char.toUpper)

/-- Python `sep.join(parts)`. -/
def py_join (sep : String) : List String → String
  | [] => ""
  | [x] => x
  | x :: xs => x ++ sep ++ py_join sep xs

mutual

/-- Python `str(v)`, as applied by f-string interpolation to the raw
values returned by `_format_value`.  Floats are shown through `Rat`'s
printer (a stand-in for Python float repr; no claim inspects a rendered
float). -/
def pyStr : PyValue → String
  | .str s => s
  | .int i => toString i
  | .float q => toString q
  | .bool b => if b then "True" else "False"
  | .none => "None"
  | .list vs => "[" ++ py_join ", " (pyStrListElems vs) ++ "]"

/-- Renderings of the elements of a Python list under `str` (elements are
shown with `repr`, so strings are quoted). -/
def pyStrListElems : List PyValue → List String
  | [] => []
  | v :: vs =>
    (match v with
     | .str s => "\x27" ++ s ++ "\x27"
     | w => pyStr w) :: pyStrListElems vs

end

/-- `_format_value`: strings are single-quoted, `None` becomes `null`,
everything else is returned raw and stringified by the surrounding
f-string. -/
def format_value : PyValue → String
  | .str s => "\x27" ++ s ++ "\x27"
  | .none => "null"
  | v => pyStr v

/-- The Python exceptions the filter compiler can raise: `ValueError`
(invalid filter input) and `KeyError` (a required dict key is absent). -/
inductive FilterErr where
  | invalidFilter (msg : String)
  | keyError (key : String)
deriving DecidableEq, Repr

/-- A filter dictionary as passed to `_build_filter_query`: optional
`field`/`operator`/`value` entries, and a `conditions` entry whose
presence is tracked by `hasCondKey` (Python distinguishes a missing key
from an empty list). -/
inductive FilterDict where
  | mk (field : Option String) (op : Option String) (value : Option PyValue)
       (hasCondKey : Bool) (conditions : List FilterDict)

/-- The `field` entry of a filter dict, if present. -/
def FilterDict.field : FilterDict → Option String
  | .mk f _ _ _ _ => f

/-- The `operator` entry of a filter dict, if present. -/
def FilterDict.op : FilterDict → Option String
  | .mk _ o _ _ _ => o

/-- The `value` entry of a filter dict, if present. -/
def FilterDict.value : FilterDict → Option PyValue
  | .mk _ _ v _ _ => v

/-- Whether the filter dict has a `conditions` key. -/
def FilterDict.hasCondKey : FilterDict → Bool
  | .mk _ _ _ h _ => h

/-- The `conditions` entry of a filter dict (meaningful when
`hasCondKey` is `true`). -/
def FilterDict.conditions : FilterDict → List FilterDict
  | .mk _ _ _ _ c => c

/-- Python truthiness of the filter dict: `not filters` holds exactly
when the dict has no keys at all. -/
def FilterDict.isEmptyDict : FilterDict → Bool
  | .mk f o v h _ => f.isNone && o.isNone && v.isNone && !h

/-- `_build_single_condition`: validate the `meta.` prefix, route to a
typed column by the runtime type of the value, format the literal, and
dispatch on the comparison operator. -/
def build_single_condition (condition : FilterDict) : Except FilterErr String :=
  match condition.field with
  | Option.none => .error (.keyError "field")
  | some field =>
    if !(py_startswith field "meta.") then
      .error (.invalidFilter ("Unsupported field format: " ++ field))
    else
      -- `field.split("meta.", 1)[1]`; under the prefix check this is the
      -- suffix after the five prefix characters.
      let key := String.mk (field.data.drop 5)
      match condition.value with
      | Option.none => .error (.keyError "value")
      | some value =>
        match condition.op with
        | Option.none => .error (.keyError "operator")
        | some op =>
          match
            (if isinstance_str value then
              Except.ok ("map_extract(d.meta_STRING, \x27" ++ key ++ "\x27)[1]")
            else if isinstance_int value then
              Except.ok ("map_extract(d.meta_INT, \x27" ++ key ++ "\x27)[1]")
            else if isinstance_float value then
              Except.ok ("map_extract(d.meta_FLOAT, \x27" ++ key ++ "\x27)[1]")
            else
              Except.error (FilterErr.invalidFilter
                ("Unsupported filter value type: " ++ pyTypeName value)) :
              Except FilterErr String)
          with
          | .error e => .error e
          | .ok field_access =>
            let formatted_value := format_value value
            if op == "==" then .ok (field_access ++ " = " ++ formatted_value)
            else if op == "!=" then .ok (field_access ++ " <> " ++ formatted_value)
            else if op == ">=" then .ok (field_access ++ " >= " ++ formatted_value)
            else if op == "<=" then .ok (field_access ++ " <= " ++ formatted_value)
            else if op == ">" then .ok (field_access ++ " > " ++ formatted_value)
            else if op == "<" then .ok (field_access ++ " < " ++ formatted_value)
            else if op == "in" then
              match value with
              | .list vs =>
                .ok (field_access ++ " IN [" ++
                  py_join ", " (vs.map format_value) ++ "]")
              | _ => .error (.invalidFilter "Operator \x27in\x27 requires a list of values.")
            else if op == "not in" then
              match value with
              | .list vs =>
                .ok (field_access ++ " NOT IN [" ++
                  py_join ", " (vs.map format_value) ++ "]")
              | _ => .error (.invalidFilter "Operator \x27not in\x27 requires a list of values.")
            else .error (.invalidFilter ("Unsupported operator: " ++ op))

mutual

/-- `_build_filter_query`: empty dict compiles to the empty predicate; a
dict with `field`, `operator` and `value` keys is a single condition;
otherwise the dict is a Logic node: its operator (defaulting to `AND`)
is upper-cased and validated, its conditions are compiled and joined. -/
def build_filter_query : FilterDict → Except FilterErr String
  | filters@(.mk f o v hk conds) =>
    if filters.isEmptyDict then .ok ""
    else if f.isSome && o.isSome && v.isSome then
      build_single_condition filters
    else
      let operator := py_upper (o.getD "AND")
      if !(["AND", "OR", "NOT"].contains operator) then
        .error (.invalidFilter "Operator must be \x27AND\x27, \x27OR\x27, or \x27NOT\x27.")
      else
        -- `filters.get("conditions", [])`: a dict without the key yields
        -- the empty loop, i.e. an `ok []` result.
        match (if hk then build_conditions operator conds else .ok []) with
        | .error e => .error e
        | .ok conditions =>
          let joined_conditions := py_join (" " ++ operator ++ " ") conditions
          .ok (if conditions.length > 1 then "(" ++ joined_conditions ++ ")"
               else joined_conditions)

/-- The `for condition in filters.get("conditions", [])` loop of
`_build_filter_query`: children with a `conditions` key are compiled
recursively and parenthesised (with a `NOT ` prefix when the parent
operator is `NOT`); other children are single conditions.  The first
exception aborts the loop. -/
def build_conditions (operator : String) : List FilterDict → Except FilterErr (List String)
  | [] => .ok []
  | condition :: rest =>
    match
      (if condition.hasCondKey then
        match build_filter_query condition with
        | .error e => .error e
        | .ok nested_query =>
          .ok (if operator == "NOT" then "NOT (" ++ nested_query ++ ")"
               else "(" ++ nested_query ++ ")")
      else build_single_condition condition)
    with
    | .error e => .error e
    | .ok c =>
      match build_conditions operator rest with
      | .error e => .error e
      | .ok cs => .ok (c :: cs)

end

/-- A stored row of the `documents` node table: id, content and the
three typed metadata map columns. -/
structure Row where
  id : String
  content : Option String
  meta_STRING : PyDict
  meta_INT : PyDict
  meta_FLOAT : PyDict

/-- A Haystack document as the store sees it: id, content and the
untyped metadata dict. -/
structure Doc where
  id : String
  content : Option String
  meta : PyDict

/-- The Haystack `DuplicatePolicy` enum. -/
inductive DuplicatePolicy where
  | NONE
  | FAIL
  | SKIP
  | OVERWRITE
deriving DecidableEq, Repr

/-- The store-level exceptions: `DuplicateDocumentError`,
`MissingDocumentError`, and the engine's primary-key violation on a
`CREATE` with an existing id. -/
inductive StoreErr where
  | duplicateDocument (id : String)
  | missingDocument (id : String)
  | primaryKeyViolation (id : String)
deriving DecidableEq, Repr

/-- The existence check `MATCH (d:documents) WHERE d.id = $id RETURN d`:
whether some stored row carries the id. -/
def doc_exists (s : List Row) (docId : String) : Bool :=
  s.any (fun r => r.id == docId)

/-- The row built by the parameterized `CREATE` in `write_documents`:
content is passed through, metadata goes through `_categorize_meta` and
the engine zips each bucket into a map column. -/
def make_row (doc : Doc) : Row :=
  let c := categorize_meta doc.meta
  { id := doc.id, content := doc.content,
    meta_STRING := bucket_pairs c.meta_STRING,
    meta_INT := bucket_pairs c.meta_INT,
    meta_FLOAT := bucket_pairs c.meta_FLOAT }

/-- The engine's `CREATE (d:documents {...})`: appends the new row, or
fails on the PRIMARY KEY(id) constraint if the id is already stored. -/
def create_document (s : List Row) (doc : Doc) : Except StoreErr (List Row) :=
  if doc_exists s doc.id then .error (.primaryKeyViolation doc.id)
  else .ok (s ++ [make_row doc])

/-- The per-document loop of `write_documents`, carrying the store state
and the `document_written` counter.  An existing id is resolved by the
duplicate policy (FAIL raises, SKIP continues, OVERWRITE deletes the old
row first); then the document is inserted via `CREATE`. -/
def write_loop (s : List Row) (docs : List Doc) (policy : DuplicatePolicy)
    (written : Nat) : List Row × Except StoreErr Nat :=
  match docs with
  | [] => (s, .ok written)
  | doc :: rest =>
    if doc_exists s doc.id then
      match policy with
      | .FAIL => (s, .error (.duplicateDocument doc.id))
      | .SKIP => write_loop s rest policy written
      | .OVERWRITE =>
        let s1 := s.filter (fun r => !(r.id == doc.id))
        match create_document s1 doc with
        | .ok s2 => write_loop s2 rest policy (written + 1)
        | .error e => (s1, .error e)
      | .NONE =>
        match create_document s doc with
        | .ok s2 => write_loop s2 rest policy (written + 1)
        | .error e => (s, .error e)
    else
      match create_document s doc with
      | .ok s2 => write_loop s2 rest policy (written + 1)
      | .error e => (s, .error e)

/-- `write_documents`: run the per-document loop and return the final
store state together with the returned count or the raised exception. -/
def write_documents (s : List Row) (docs : List Doc) (policy : DuplicatePolicy) :
    List Row × Except StoreErr Nat :=
  write_loop s docs policy 0

/-- `delete_documents`: for each id in order, existence-check then
delete; the first missing id raises `MissingDocumentError`, leaving the
deletions made so far in place. -/
def delete_documents (s : List Row) : List String → List Row × Except StoreErr Unit
  | [] => (s, .ok ())
  | docId :: rest =>
    if doc_exists s docId then
      delete_documents (s.filter (fun r => !(r.id == docId))) rest
    else (s, .error (.missingDocument docId))

/-- `count_documents`: `MATCH (d:documents) RETURN count(d)`. -/
def count_documents (s : List Row) : Nat := s.length

/-- One row of the read query decoded back into a document, unioning the
three typed maps as in `filter_documents`. -/
def row_to_document (r : Row) : Doc :=
  { id := r.id, content := r.content,
    meta := decode_meta r.meta_STRING r.meta_INT r.meta_FLOAT }

/-- `filter_documents` called without filters: one query returning every
stored row, each decoded into a document (the filtered variant delegates
predicate evaluation to the engine and is exercised nowhere by the
claims). -/
def filter_documents (s : List Row) : List Doc :=
  s.map row_to_document

instance {e a : Type} [DecidableEq e] [DecidableEq a] : DecidableEq (Except e a)
  | .ok x, .ok y =>
    match decEq x y with
    | isTrue h => isTrue (by rw [h])
    | isFalse h => isFalse (by intro hh; cases hh; exact h rfl)
  | .ok _, .error _ => isFalse (by intro h; cases h)
  | .error _, .ok _ => isFalse (by intro h; cases h)
  | .error x, .error y =>
    match decEq x y with
    | isTrue h => isTrue (by rw [h])
    | isFalse h => isFalse (by intro hh; cases hh; exact h rfl)

/-! ## Lemmas about the dict model -/

mutual

theorem pyBeq_refl : (v : PyValue) → pyBeq v v = true
  | .str _ => by simp [pyBeq]
  | .int _ => by simp [pyBeq]
  | .float _ => by simp [pyBeq]
  | .bool _ => by simp [pyBeq]
  | .none => rfl
  | .list vs => by simp [pyBeq, pyBeqList_refl vs]

theorem pyBeqList_refl : (vs : List PyValue) → pyBeqList vs vs = true
  | [] => rfl
  | v :: vs => by simp [pyBeqList, pyBeq_refl v, pyBeqList_refl vs]

end

theorem optPyBeq_refl (o : Option PyValue) : optPyBeq o o = true := by
  cases o with
  | none => rfl
  | some v => simpa [optPyBeq] using pyBeq_refl v

theorem dictEq_of_lookup_eq {d1 d2 : PyDict}
    (h : ∀ k, dictLookup d1 k = dictLookup d2 k) : dictEq d1 d2 = true := by
  unfold dictEq
  rw [Bool.and_eq_true]
  constructor
  · rw [List.all_eq_true]
    intro p _
    rw [h p.1]
    exact optPyBeq_refl _
  · rw [List.all_eq_true]
    intro p _
    rw [h p.1]
    exact optPyBeq_refl _

theorem dictLookup_eq_none_of_not_mem {d : PyDict} {k : String}
    (h : k ∉ d.map Prod.fst) : dictLookup d k = Option.none := by
  induction d with
  | nil => rfl
  | cons p rest ih =>
    simp only [List.map_cons, List.mem_cons] at h
    push_neg at h
    simp only [dictLookup]
    rw [if_neg (Ne.symm h.1)]
    exact ih h.2

theorem dictLookup_eq_none_of_contains_false {d : PyDict} {k : String}
    (h : dictContains d k = false) : dictLookup d k = Option.none := by
  induction d with
  | nil => rfl
  | cons p rest ih =>
    simp only [dictContains] at h
    simp only [dictLookup]
    by_cases hp : p.1 = k
    · rw [if_pos hp] at h
      exact absurd h (by simp)
    · rw [if_neg hp] at h
      rw [if_neg hp]
      exact ih h

theorem dictLookup_map_set_self {d : PyDict} {k0 : String} {v0 : PyValue}
    (h : dictContains d k0 = true) :
    dictLookup (d.map (fun p => if p.1 = k0 then (k0, v0) else p)) k0 = some v0 := by
  induction d with
  | nil => simp [dictContains] at h
  | cons p rest ih =>
    simp only [List.map_cons]
    by_cases hp : p.1 = k0
    · rw [if_pos hp]
      simp [dictLookup]
    · rw [if_neg hp]
      simp only [dictLookup]
      rw [if_neg hp]
      apply ih
      simpa [dictContains, if_neg hp] using h

theorem dictLookup_map_set_ne {d : PyDict} {k0 k : String} {v0 : PyValue}
    (hk : k ≠ k0) :
    dictLookup (d.map (fun p => if p.1 = k0 then (k0, v0) else p)) k = dictLookup d k := by
  induction d with
  | nil => rfl
  | cons p rest ih =>
    simp only [List.map_cons]
    by_cases hp : p.1 = k0
    · rw [if_pos hp]
      simp only [dictLookup]
      rw [if_neg (fun h => hk (Eq.symm h)), if_neg (fun h => hk (Eq.symm (hp ▸ h)))]
      exact ih
    · rw [if_neg hp]
      simp only [dictLookup]
      by_cases hq : p.1 = k
      · rw [if_pos hq, if_pos hq]
      · rw [if_neg hq, if_neg hq]
        exact ih

theorem dictLookup_append (d1 d2 : PyDict) (k : String) :
    dictLookup (d1 ++ d2) k = optOr (dictLookup d1 k) (dictLookup d2 k) := by
  induction d1 with
  | nil => rfl
  | cons p rest ih =>
    simp only [List.cons_append, dictLookup]
    by_cases hp : p.1 = k
    · rw [if_pos hp, if_pos hp]
      rfl
    · rw [if_neg hp, if_neg hp]
      exact ih

theorem dictLookup_dictSet (d : PyDict) (k0 : String) (v0 : PyValue) (k : String) :
    dictLookup (dictSet d k0 v0) k = if k = k0 then some v0 else dictLookup d k := by
  unfold dictSet
  cases hc : dictContains d k0 with
  | true =>
    rw [if_pos rfl]
    by_cases hk : k = k0
    · subst hk
      rw [if_pos rfl]
      exact dictLookup_map_set_self hc
    · rw [if_neg hk]
      exact dictLookup_map_set_ne hk
  | false =>
    rw [if_neg (by simp)]
    rw [dictLookup_append]
    by_cases hk : k = k0
    · subst hk
      rw [dictLookup_eq_none_of_contains_false hc]
      simp [dictLookup, optOr]
    · rw [if_neg hk]
      have hx : dictLookup [(k0, v0)] k = Option.none := by
        simp [dictLookup, if_neg (fun h => hk (Eq.symm h))]
      rw [hx]
      cases dictLookup d k <;> rfl

theorem dictLookup_dictUpdate (other : PyDict) (h : DictNodup other) :
    ∀ (d : PyDict) (k : String),
      dictLookup (dictUpdate d other) k = optOr (dictLookup other k) (dictLookup d k) := by
  induction other with
  | nil =>
    intro d k
    simp [dictUpdate, dictLookup, optOr]
  | cons p rest ih =>
    intro d k
    obtain ⟨k0, v0⟩ := p
    have h' : (k0 :: rest.map Prod.fst).Nodup := h
    have hcons := List.nodup_cons.mp h'
    have hnd : DictNodup rest := hcons.2
    have hk0 : k0 ∉ rest.map Prod.fst := hcons.1
    show dictLookup (dictUpdate (dictSet d k0 v0) rest) k = _
    rw [ih hnd (dictSet d k0 v0) k, dictLookup_dictSet]
    by_cases hk : k = k0
    · subst hk
      rw [dictLookup_eq_none_of_not_mem hk0]
      simp [dictLookup, optOr]
    · rw [if_neg hk]
      have hr : dictLookup ((k0, v0) :: rest) k = dictLookup rest k := by
        simp only [dictLookup]
        rw [if_neg (fun hh => hk (Eq.symm hh))]
      rw [hr]

theorem decode_meta_eq (ms mi mf : PyDict) :
    decode_meta ms mi mf = dictUpdate (dictUpdate (dictUpdate [] ms) mi) mf := by
  have upd_nil : ∀ d : PyDict, dictUpdate d [] = d := fun d => rfl
  cases ms <;> cases mi <;> cases mf <;>
    simp [decode_meta, List.isEmpty, upd_nil]

theorem decode_meta_lookup (ms mi mf : PyDict)
    (hs : DictNodup ms) (hi : DictNodup mi) (hf : DictNodup mf) (k : String) :
    dictLookup (decode_meta ms mi mf) k
      = optOr (dictLookup mf k) (optOr (dictLookup mi k) (dictLookup ms k)) := by
  rw [decode_meta_eq, dictLookup_dictUpdate mf hf, dictLookup_dictUpdate mi hi,
    dictLookup_dictUpdate ms hs]
  cases dictLookup ms k <;> cases dictLookup mi k <;> cases dictLookup mf k <;> rfl

theorem dictNodup_filter (pred : String × PyValue → Bool) {m : PyDict}
    (h : DictNodup m) : DictNodup (m.filter pred) :=
  List.Nodup.sublist (List.Sublist.map Prod.fst (List.filter_sublist m)) h

theorem dictLookup_filter (pred : PyValue → Bool) (m : PyDict) :
    DictNodup m → ∀ k : String,
      dictLookup (m.filter (fun p => pred p.2)) k
        = Option.bind (dictLookup m k) (fun v => if pred v then some v else Option.none) := by
  induction m with
  | nil =>
    intro _ k
    rfl
  | cons p rest ih =>
    intro h k
    obtain ⟨k1, v1⟩ := p
    have h' : (k1 :: rest.map Prod.fst).Nodup := h
    have hcons := List.nodup_cons.mp h'
    have hnd : DictNodup rest := hcons.2
    have hk1 : k1 ∉ rest.map Prod.fst := hcons.1
    rw [List.filter_cons]
    by_cases hk : k1 = k
    · subst hk
      cases hp : pred v1 with
      | true =>
        rw [if_pos (by simp [hp])]
        simp only [dictLookup, if_pos rfl]
        simp [hp]
      | false =>
        rw [if_neg (by simp [hp])]
        have hnone : dictLookup (rest.filter (fun p => pred p.2)) k1 = Option.none := by
          apply dictLookup_eq_none_of_not_mem
          intro hmem
          exact hk1
            (List.Sublist.subset (List.Sublist.map Prod.fst (List.filter_sublist rest)) hmem)
        rw [hnone]
        simp only [dictLookup, if_pos rfl]
        simp [hp]
    · have hr : dictLookup ((k1, v1) :: rest) k = dictLookup rest k := by
        simp only [dictLookup]
        rw [if_neg hk]
      rw [hr]
      cases hp : pred v1 with
      | true =>
        rw [if_pos (by simp [hp])]
        have hl : dictLookup ((k1, v1) :: rest.filter (fun p => pred p.2)) k
            = dictLookup (rest.filter (fun p => pred p.2)) k := by
          simp only [dictLookup]
          rw [if_neg hk]
        rw [hl]
        exact ih hnd k
      | false =>
        rw [if_neg (by simp [hp])]
        exact ih hnd k

/-! ## Lemmas about the typed-metadata encoder -/

theorem categorize_foldl_string (meta : PyDict) :
    ∀ acc : CategorizedMeta,
      acc.meta_STRING.key.length = acc.meta_STRING.value.length →
      bucket_pairs ((meta.foldl categorize_step acc).meta_STRING)
        = bucket_pairs acc.meta_STRING ++ meta.filter (fun p => isinstance_str p.2) := by
  induction meta with
  | nil =>
    intro acc _
    simp
  | cons p rest ih =>
    intro acc hlen
    obtain ⟨k, v⟩ := p
    rw [List.foldl_cons, List.filter_cons]
    cases v with
    | str s =>
      have hb : bucket_pairs (categorize_step acc (k, PyValue.str s)).meta_STRING
          = bucket_pairs acc.meta_STRING ++ [(k, PyValue.str s)] := by
        show (acc.meta_STRING.key ++ [k]).zip (acc.meta_STRING.value ++ [PyValue.str s])
            = acc.meta_STRING.key.zip acc.meta_STRING.value ++ [(k, PyValue.str s)]
        rw [List.zip_append hlen]
        rfl
      rw [ih (categorize_step acc (k, PyValue.str s))
            (by
              show (acc.meta_STRING.key ++ [k]).length
                  = (acc.meta_STRING.value ++ [PyValue.str s]).length
              simp [hlen]),
          hb, if_pos (by simp [isinstance_str])]
      simp
    | int i =>
      rw [ih (categorize_step acc (k, PyValue.int i)) hlen,
        if_neg (by simp [isinstance_str])]
      rfl
    | float q =>
      rw [ih (categorize_step acc (k, PyValue.float q)) hlen,
        if_neg (by simp [isinstance_str])]
      rfl
    | bool b =>
      rw [ih (categorize_step acc (k, PyValue.bool b)) hlen,
        if_neg (by simp [isinstance_str])]
      rfl
    | none =>
      rw [ih (categorize_step acc (k, PyValue.none)) hlen,
        if_neg (by simp [isinstance_str])]
      rfl
    | list vs =>
      rw [ih (categorize_step acc (k, PyValue.list vs)) hlen,
        if_neg (by simp [isinstance_str])]
      rfl

theorem categorize_foldl_int (meta : PyDict) :
    ∀ acc : CategorizedMeta,
      acc.meta_INT.key.length = acc.meta_INT.value.length →
      bucket_pairs ((meta.foldl categorize_step acc).meta_INT)
        = bucket_pairs acc.meta_INT ++ meta.filter (fun p => isinstance_int p.2) := by
  induction meta with
  | nil =>
    intro acc _
    simp
  | cons p rest ih =>
    intro acc hlen
    obtain ⟨k, v⟩ := p
    rw [List.foldl_cons, List.filter_cons]
    cases v with
    | int i =>
      have hb : bucket_pairs (categorize_step acc (k, PyValue.int i)).meta_INT
          = bucket_pairs acc.meta_INT ++ [(k, PyValue.int i)] := by
        show (acc.meta_INT.key ++ [k]).zip (acc.meta_INT.value ++ [PyValue.int i])
            = acc.meta_INT.key.zip acc.meta_INT.value ++ [(k, PyValue.int i)]
        rw [List.zip_append hlen]
        rfl
      rw [ih (categorize_step acc (k, PyValue.int i))
            (by
              show (acc.meta_INT.key ++ [k]).length
                  = (acc.meta_INT.value ++ [PyValue.int i]).length
              simp [hlen]),
          hb, if_pos (by simp [isinstance_int])]
      simp
    | bool b =>
      have hb : bucket_pairs (categorize_step acc (k, PyValue.bool b)).meta_INT
          = bucket_pairs acc.meta_INT ++ [(k, PyValue.bool b)] := by
        show (acc.meta_INT.key ++ [k]).zip (acc.meta_INT.value ++ [PyValue.bool b])
            = acc.meta_INT.key.zip acc.meta_INT.value ++ [(k, PyValue.bool b)]
        rw [List.zip_append hlen]
        rfl
      rw [ih (categorize_step acc (k, PyValue.bool b))
            (by
              show (acc.meta_INT.key ++ [k]).length
                  = (acc.meta_INT.value ++ [PyValue.bool b]).length
              simp [hlen]),
          hb, if_pos (by simp [isinstance_int])]
      simp
    | str s =>
      rw [ih (categorize_step acc (k, PyValue.str s)) hlen,
        if_neg (by simp [isinstance_int])]
      rfl
    | float q =>
      rw [ih (categorize_step acc (k, PyValue.float q)) hlen,
        if_neg (by simp [isinstance_int])]
      rfl
    | none =>
      rw [ih (categorize_step acc (k, PyValue.none)) hlen,
        if_neg (by simp [isinstance_int])]
      rfl
    | list vs =>
      rw [ih (categorize_step acc (k, PyValue.list vs)) hlen,
        if_neg (by simp [isinstance_int])]
      rfl

theorem categorize_foldl_float (meta : PyDict) :
    ∀ acc : CategorizedMeta,
      acc.meta_FLOAT.key.length = acc.meta_FLOAT.value.length →
      bucket_pairs ((meta.foldl categorize_step acc).meta_FLOAT)
        = bucket_pairs acc.meta_FLOAT ++ meta.filter (fun p => isinstance_float p.2) := by
  induction meta with
  | nil =>
    intro acc _
    simp
  | cons p rest ih =>
    intro acc hlen
    obtain ⟨k, v⟩ := p
    rw [List.foldl_cons, List.filter_cons]
    cases v with
    | float q =>
      have hb : bucket_pairs (categorize_step acc (k, PyValue.float q)).meta_FLOAT
          = bucket_pairs acc.meta_FLOAT ++ [(k, PyValue.float q)] := by
        show (acc.meta_FLOAT.key ++ [k]).zip (acc.meta_FLOAT.value ++ [PyValue.float q])
            = acc.meta_FLOAT.key.zip acc.meta_FLOAT.value ++ [(k, PyValue.float q)]
        rw [List.zip_append hlen]
        rfl
      rw [ih (categorize_step acc (k, PyValue.float q))
            (by
              show (acc.meta_FLOAT.key ++ [k]).length
                  = (acc.meta_FLOAT.value ++ [PyValue.float q]).length
              simp [hlen]),
          hb, if_pos (by simp [isinstance_float])]
      simp
    | str s =>
      rw [ih (categorize_step acc (k, PyValue.str s)) hlen,
        if_neg (by simp [isinstance_float])]
      rfl
    | int i =>
      rw [ih (categorize_step acc (k, PyValue.int i)) hlen,
        if_neg (by simp [isinstance_float])]
      rfl
    | bool b =>
      rw [ih (categorize_step acc (k, PyValue.bool b)) hlen,
        if_neg (by simp [isinstance_float])]
      rfl
    | none =>
      rw [ih (categorize_step acc (k, PyValue.none)) hlen,
        if_neg (by simp [isinstance_float])]
      rfl
    | list vs =>
      rw [ih (categorize_step acc (k, PyValue.list vs)) hlen,
        if_neg (by simp [isinstance_float])]
      rfl

theorem categorize_foldl_warned (meta : PyDict) :
    ∀ acc : CategorizedMeta,
      (meta.foldl categorize_step acc).warned
        = acc.warned ++ (meta.filter (fun p => !supported_meta p.2)).map Prod.fst := by
  induction meta with
  | nil =>
    intro acc
    simp
  | cons p rest ih =>
    intro acc
    obtain ⟨k, v⟩ := p
    rw [List.foldl_cons, List.filter_cons]
    cases v with
    | str s =>
      rw [ih (categorize_step acc (k, PyValue.str s)),
        if_neg (by simp [supported_meta, isinstance_str])]
      rfl
    | int i =>
      rw [ih (categorize_step acc (k, PyValue.int i)),
        if_neg (by simp [supported_meta, isinstance_int])]
      rfl
    | float q =>
      rw [ih (categorize_step acc (k, PyValue.float q)),
        if_neg (by simp [supported_meta, isinstance_float])]
      rfl
    | bool b =>
      rw [ih (categorize_step acc (k, PyValue.bool b)),
        if_neg (by simp [supported_meta, isinstance_int])]
      rfl
    | none =>
      rw [ih (categorize_step acc (k, PyValue.none)),
        if_pos (by simp [supported_meta, isinstance_str, isinstance_int, isinstance_float])]
      show acc.warned ++ [k] ++ _ = _
      simp
    | list vs =>
      rw [ih (categorize_step acc (k, PyValue.list vs)),
        if_pos (by simp [supported_meta, isinstance_str, isinstance_int, isinstance_float])]
      show acc.warned ++ [k] ++ _ = _
      simp

theorem categorize_pairs_string (m : PyDict) :
    bucket_pairs (categorize_meta m).meta_STRING
      = m.filter (fun p => isinstance_str p.2) := by
  have h := categorize_foldl_string m emptyCategorized rfl
  simpa [categorize_meta, emptyCategorized, bucket_pairs] using h

theorem categorize_pairs_int (m : PyDict) :
    bucket_pairs (categorize_meta m).meta_INT
      = m.filter (fun p => isinstance_int p.2) := by
  have h := categorize_foldl_int m emptyCategorized rfl
  simpa [categorize_meta, emptyCategorized, bucket_pairs] using h

theorem categorize_pairs_float (m : PyDict) :
    bucket_pairs (categorize_meta m).meta_FLOAT
      = m.filter (fun p => isinstance_float p.2) := by
  have h := categorize_foldl_float m emptyCategorized rfl
  simpa [categorize_meta, emptyCategorized, bucket_pairs] using h

theorem categorize_warned (m : PyDict) :
    (categorize_meta m).warned
      = (m.filter (fun p => !supported_meta p.2)).map Prod.fst := by
  have h := categorize_foldl_warned m emptyCategorized
  simpa [categorize_meta, emptyCategorized] using h

theorem roundtrip_meta_lookup (m : PyDict) (h : DictNodup m) (k : String) :
    dictLookup (roundtrip_meta m) k
      = Option.bind (dictLookup m k)
          (fun v => if supported_meta v then some v else Option.none) := by
  show dictLookup
      (decode_meta (bucket_pairs (categorize_meta m).meta_STRING)
        (bucket_pairs (categorize_meta m).meta_INT)
        (bucket_pairs (categorize_meta m).meta_FLOAT)) k = _
  rw [categorize_pairs_string m, categorize_pairs_int m, categorize_pairs_float m]
  rw [decode_meta_lookup _ _ _ (dictNodup_filter _ h) (dictNodup_filter _ h)
    (dictNodup_filter _ h) k]
  rw [dictLookup_filter _ m h k, dictLookup_filter _ m h k, dictLookup_filter _ m h k]
  cases hv : dictLookup m k with
  | none => rfl
  | some v => cases v <;> rfl

theorem mem_of_dictLookup {m : PyDict} {k : String} {v : PyValue}
    (h : dictLookup m k = some v) : (k, v) ∈ m := by
  induction m with
  | nil => simp [dictLookup] at h
  | cons p rest ih =>
    obtain ⟨k1, v1⟩ := p
    simp only [dictLookup] at h
    by_cases hp : k1 = k
    · rw [if_pos hp] at h
      subst hp
      cases h
      exact List.mem_cons_self _ _
    · rw [if_neg hp] at h
      exact List.mem_cons_of_mem _ (ih h)

/-! ## The codec claims -/

/-- Claim C1: for every metadata mapping whose values are all of Python
type `str`, `int` or `float`, decoding the three typed maps produced by
encoding it (partitioning by runtime value type, then unioning the three
buckets) reproduces the mapping exactly: `decode(encode(m)) == m`. -/
theorem metadata_roundtrip_exact (m : PyDict) (hnd : DictNodup m)
    (hsupp : ∀ p ∈ m, is_scalar_value p.2 = true) :
    dictEq (roundtrip_meta m) m = true := by
  apply dictEq_of_lookup_eq
  intro k
  rw [roundtrip_meta_lookup m hnd k]
  cases hv : dictLookup m k with
  | none => rfl
  | some v =>
    have hmem := mem_of_dictLookup hv
    have hs := hsupp _ hmem
    cases v <;>
      simp_all [is_scalar_value, supported_meta, isinstance_str, isinstance_int,
        isinstance_float]

/-- Witness for C1 at a concrete three-typed mapping. -/
theorem metadata_roundtrip_exact_witness :
    dictEq
      (roundtrip_meta [("a", PyValue.str "x"), ("b", PyValue.int 3), ("f", PyValue.float 2)])
      [("a", PyValue.str "x"), ("b", PyValue.int 3), ("f", PyValue.float 2)] = true :=
  metadata_roundtrip_exact _ (by decide) (by decide)

/-- Claim C4, counterexample: a boolean metadata value is not dropped by
`_categorize_meta` — Python's `bool` passes `isinstance(-, int)`, so the
key lands in the `meta_INT` bucket, no warning is issued, and the decoded
mapping still contains it. -/
theorem bool_meta_not_dropped :
    dictLookup (roundtrip_meta [("flag", PyValue.bool true)]) "flag"
        = some (PyValue.bool true) ∧
    (categorize_meta [("flag", PyValue.bool true)]).meta_INT.key = ["flag"] ∧
    (categorize_meta [("flag", PyValue.bool true)]).warned = [] :=
  ⟨rfl, rfl, rfl⟩

/-- Claim C4 (amended): for every metadata mapping, encoding drops exactly
the keys whose values fail the whole `isinstance` chain (`str`/`int`/
`float`, where booleans count as ints) — e.g. nested structures and
`None`, but not booleans — emitting a warning for each dropped key,
completing without raising, and the decoded result omits exactly those
keys. -/
theorem unsupported_meta_dropped (m : PyDict) (hnd : DictNodup m) :
    (∀ k, dictLookup (roundtrip_meta m) k
        = Option.bind (dictLookup m k)
            (fun v => if supported_meta v then some v else Option.none)) ∧
    (categorize_meta m).warned
      = (m.filter (fun p => !supported_meta p.2)).map Prod.fst :=
  ⟨fun k => roundtrip_meta_lookup m hnd k, categorize_warned m⟩

/-- Witness for the amended C4 at a mapping with a `None` and a list
value. -/
theorem unsupported_meta_dropped_witness :
    dictLookup
        (roundtrip_meta
          [("a", PyValue.str "x"), ("z", PyValue.none), ("l", PyValue.list [PyValue.int 1])])
        "z"
      = Option.bind
          (dictLookup
            [("a", PyValue.str "x"), ("z", PyValue.none), ("l", PyValue.list [PyValue.int 1])]
            "z")
          (fun v => if supported_meta v then some v else Option.none) ∧
    (categorize_meta
        [("a", PyValue.str "x"), ("z", PyValue.none), ("l", PyValue.list [PyValue.int 1])]).warned
      = (([("a", PyValue.str "x"), ("z", PyValue.none),
            ("l", PyValue.list [PyValue.int 1])] : PyDict).filter
          (fun p => !supported_meta p.2)).map Prod.fst :=
  ⟨(unsupported_meta_dropped _ (by decide)).1 "z",
   (unsupported_meta_dropped _ (by decide)).2⟩

/-- Claim C9: when the three typed maps of a stored row share a key, the
reconstruction in `filter_documents` resolves the collision
deterministically, float over int over string: the string map is applied
first, then overwritten by the int map, then by the float map. -/
theorem decode_meta_precedence (ms mi mf : PyDict)
    (hs : DictNodup ms) (hi : DictNodup mi) (hf : DictNodup mf) (k : String) :
    dictLookup (decode_meta ms mi mf) k
      = optOr (dictLookup mf k) (optOr (dictLookup mi k) (dictLookup ms k)) :=
  decode_meta_lookup ms mi mf hs hi hf k

/-- Witness for C9 at a row whose three maps all bind the same key: the
float binding wins. -/
theorem decode_meta_precedence_witness :
    dictLookup
        (decode_meta [("k", PyValue.str "s")] [("k", PyValue.int 1)] [("k", PyValue.float 2)])
        "k"
      = optOr (dictLookup [("k", PyValue.float 2)] "k")
          (optOr (dictLookup [("k", PyValue.int 1)] "k")
            (dictLookup [("k", PyValue.str "s")] "k")) ∧
    dictLookup
        (decode_meta [("k", PyValue.str "s")] [("k", PyValue.int 1)] [("k", PyValue.float 2)])
        "k"
      = some (PyValue.float 2) :=
  ⟨decode_meta_precedence _ _ _ (by decide) (by decide) (by decide) "k", rfl⟩

/-! ## Store lemmas and the CRUD claims -/

theorem doc_exists_append_left {s : List Row} {r : Row} {i : String}
    (h : doc_exists s i = true) : doc_exists (s ++ [r]) i = true := by
  simp only [doc_exists, List.any_append, Bool.or_eq_true]
  exact Or.inl h

theorem doc_exists_filter_self (s : List Row) (a : String) :
    doc_exists (s.filter (fun r => !(r.id == a))) a = false := by
  induction s with
  | nil => rfl
  | cons r rest ih =>
    rw [List.filter_cons]
    cases hr : (r.id == a) with
    | true =>
      rw [if_neg (by simp [hr])]
      exact ih
    | false =>
      rw [if_pos (by simp [hr])]
      simp only [doc_exists, List.any_cons] at ih ⊢
      simp [hr, ih]

/-- Claim C5: against a store holding a document with id `"1"`, writing a
document with that id under FAIL raises `DuplicateDocumentError` and
leaves the state unchanged; under SKIP it returns 0 and leaves the state
unchanged; under OVERWRITE with new content it deletes the old row,
inserts the new one, returns 1, and a subsequent unfiltered read returns
the new content for id `"1"`. -/
theorem duplicate_policy_scenarios (s : List Row) (h1 : doc_exists s "1" = true)
    (d dnew : Doc) (hd : d.id = "1") (hn : dnew.id = "1") :
    write_documents s [d] DuplicatePolicy.FAIL
        = (s, .error (.duplicateDocument "1")) ∧
    write_documents s [d] DuplicatePolicy.SKIP = (s, .ok 0) ∧
    write_documents s [dnew] DuplicatePolicy.OVERWRITE
        = ((s.filter fun r => !(r.id == "1")) ++ [make_row dnew], .ok 1) ∧
    (∀ doc ∈ filter_documents ((s.filter fun r => !(r.id == "1")) ++ [make_row dnew]),
        doc.id = "1" → doc.content = dnew.content) ∧
    ∃ doc ∈ filter_documents ((s.filter fun r => !(r.id == "1")) ++ [make_row dnew]),
        doc.id = "1" ∧ doc.content = dnew.content := by
  refine ⟨?_, ?_, ?_, ?_, ?_⟩
  · show write_loop s [d] DuplicatePolicy.FAIL 0 = _
    simp only [write_loop, hd, h1]
    simp
  · show write_loop s [d] DuplicatePolicy.SKIP 0 = _
    simp only [write_loop, hd, h1]
    simp
  · show write_loop s [dnew] DuplicatePolicy.OVERWRITE 0 = _
    simp only [write_loop, hn, h1, create_document, doc_exists_filter_self]
    simp
  · intro doc hdoc hid
    simp only [filter_documents, List.mem_map] at hdoc
    obtain ⟨r, hr, hrdoc⟩ := hdoc
    subst hrdoc
    rcases List.mem_append.mp hr with hrs | hrn
    · have hpred := (List.mem_filter.mp hrs).2
      simp only [row_to_document] at hid
      simp [hid] at hpred
    · have : r = make_row dnew := by simpa using hrn
      subst this
      rfl
  · refine ⟨row_to_document (make_row dnew), ?_, hn, rfl⟩
    exact List.mem_map_of_mem _ (List.mem_append_right _ (by simp))

/-- Witness for C5 at a concrete one-row store. -/
theorem duplicate_policy_scenarios_witness :
    write_documents [⟨"1", some "old", [], [], []⟩] [⟨"1", some "old", []⟩]
        DuplicatePolicy.FAIL
      = ([⟨"1", some "old", [], [], []⟩], .error (.duplicateDocument "1")) ∧
    write_documents [⟨"1", some "old", [], [], []⟩] [⟨"1", some "old", []⟩]
        DuplicatePolicy.SKIP
      = ([⟨"1", some "old", [], [], []⟩], .ok 0) ∧
    write_documents [⟨"1", some "old", [], [], []⟩] [⟨"1", some "updated", []⟩]
        DuplicatePolicy.OVERWRITE
      = ((([⟨"1", some "old", [], [], []⟩] : List Row).filter fun r => !(r.id == "1"))
          ++ [make_row ⟨"1", some "updated", []⟩], .ok 1) :=
  ⟨(duplicate_policy_scenarios [⟨"1", some "old", [], [], []⟩] (by decide)
      ⟨"1", some "old", []⟩ ⟨"1", some "updated", []⟩ rfl rfl).1,
   (duplicate_policy_scenarios [⟨"1", some "old", [], [], []⟩] (by decide)
      ⟨"1", some "old", []⟩ ⟨"1", some "updated", []⟩ rfl rfl).2.1,
   (duplicate_policy_scenarios [⟨"1", some "old", [], [], []⟩] (by decide)
      ⟨"1", some "old", []⟩ ⟨"1", some "updated", []⟩ rfl rfl).2.2.1⟩

/-- Claim C6: a FAIL-policy batch `[docA, docB]` where docA's id is absent
and docB's id is present raises `DuplicateDocumentError` on docB, yet
docA is already persisted: the final state is the old state plus docA's
row, and the document count has increased by 1 (no batch atomicity). -/
theorem batch_partial_write (s : List Row) (a b : Doc)
    (ha : doc_exists s a.id = false) (hb : doc_exists s b.id = true) :
    write_documents s [a, b] DuplicatePolicy.FAIL
        = (s ++ [make_row a], .error (.duplicateDocument b.id)) ∧
    count_documents (s ++ [make_row a]) = count_documents s + 1 := by
  constructor
  · show write_loop s [a, b] DuplicatePolicy.FAIL 0 = _
    simp only [write_loop, ha, create_document, Bool.false_eq_true, if_false,
      doc_exists_append_left hb]
    simp
  · simp [count_documents]

/-- Witness for C6: a one-row store, a fresh docA and a duplicate docB. -/
theorem batch_partial_write_witness :
    write_documents [⟨"b", some "x", [], [], []⟩]
        [⟨"a", some "ca", []⟩, ⟨"b", some "cb", []⟩] DuplicatePolicy.FAIL
      = ([⟨"b", some "x", [], [], []⟩] ++ [make_row ⟨"a", some "ca", []⟩],
         .error (.duplicateDocument "b")) ∧
    count_documents ([⟨"b", some "x", [], [], []⟩] ++ [make_row ⟨"a", some "ca", []⟩])
      = count_documents [⟨"b", some "x", [], [], []⟩] + 1 :=
  batch_partial_write _ _ _ (by decide) (by decide)

/-- Claim C7: `delete_documents` existence-checks then deletes each id in
order; a missing id aborts the whole call at that point by raising
`MissingDocumentError`, leaving the state as accumulated so far (earlier
deletions persist, no rollback). -/
theorem delete_documents_behavior :
    (∀ (s : List Row) (docId : String) (rest : List String),
        doc_exists s docId = false →
        delete_documents s (docId :: rest) = (s, .error (.missingDocument docId))) ∧
    (∀ (s : List Row) (docId : String) (rest : List String),
        doc_exists s docId = true →
        delete_documents s (docId :: rest)
          = delete_documents (s.filter fun r => !(r.id == docId)) rest) ∧
    (∀ (s : List Row) (a b : String),
        doc_exists s a = true →
        doc_exists (s.filter fun r => !(r.id == a)) b = false →
        delete_documents s [a, b]
          = ((s.filter fun r => !(r.id == a)), .error (.missingDocument b))) := by
  refine ⟨?_, ?_, ?_⟩
  · intro s docId rest h
    simp only [delete_documents, h]
    simp
  · intro s docId rest h
    simp only [delete_documents, h]
    simp
  · intro s a b ha hb
    simp only [delete_documents, ha, hb]
    simp

/-- Witness for C7: deleting `["a", "b"]` from a store holding only
`"a"` removes the `"a"` row and then raises on the missing `"b"`. -/
theorem delete_documents_behavior_witness :
    delete_documents ([] : List Row) ["z"] = ([], .error (.missingDocument "z")) ∧
    delete_documents [⟨"a", some "c", [], [], []⟩] ["a", "b"]
      = (([⟨"a", some "c", [], [], []⟩] : List Row).filter (fun r => !(r.id == "a")),
         .error (.missingDocument "b")) :=
  ⟨delete_documents_behavior.1 [] "z" [] rfl,
   delete_documents_behavior.2.2 [⟨"a", some "c", [], [], []⟩] "a" "b" (by decide) (by decide)⟩

/-! ## The filter-compiler claims -/

/-- Claim C2, code evaluation at the failing input: an `in` / `not in`
comparison whose value IS a list of scalars is rejected by the
type-directed column dispatch (which runs first and has no list case), so
the bracketed-list compilation is unreachable; and an `in` comparison
with a scalar value raises in the membership branch instead. -/
theorem in_operator_never_compiles :
    build_single_condition (.mk (some "meta.genre") (some "in")
        (some (.list [.str "economy", .str "politics"])) false [])
      = .error (.invalidFilter "Unsupported filter value type: list") ∧
    build_single_condition (.mk (some "meta.genre") (some "in")
        (some (.str "economy")) false [])
      = .error (.invalidFilter "Operator \x27in\x27 requires a list of values.") ∧
    build_single_condition (.mk (some "meta.genre") (some "not in")
        (some (.list [.str "economy", .str "politics"])) false [])
      = .error (.invalidFilter "Unsupported filter value type: list") :=
  ⟨by decide, by decide, by decide⟩

/-- Claim C3, code evaluation at the failing input: compiling the Logic
node `NOT [meta.a == 1]` produces exactly the child comparison's
predicate, with no negation at all — the `NOT ` prefix is only prepended
to children that are themselves Logic nodes — so the compiled string is
identical to compiling the bare comparison. -/
theorem not_single_comparison_unnegated :
    build_filter_query (.mk Option.none (some "NOT") Option.none true
        [.mk (some "meta.a") (some "==") (some (.int 1)) false []])
      = .ok "map_extract(d.meta_INT, \x27a\x27)[1] = 1" ∧
    build_single_condition (.mk (some "meta.a") (some "==") (some (.int 1)) false [])
      = .ok "map_extract(d.meta_INT, \x27a\x27)[1] = 1" :=
  ⟨by decide, by decide⟩

/-- Claim C8: a Logic node's operator is upper-cased before being
validated against AND/OR/NOT, so validation is case-insensitive (the node
compiles exactly as its upper-cased form does), and any present operator
whose upper-casing is not one of the three makes compilation raise a
`ValueError`. -/
theorem logic_operator_validation (f : Option String) (o : String) (v : Option PyValue)
    (hk : Bool) (conds : List FilterDict) (hns : f.isNone ∨ v.isNone) :
    (["AND", "OR", "NOT"].contains (py_upper o) = true →
       build_filter_query (.mk f (some o) v hk conds)
         = build_filter_query (.mk f (some (py_upper o)) v hk conds)) ∧
    (["AND", "OR", "NOT"].contains (py_upper o) = false →
       build_filter_query (.mk f (some o) v hk conds)
         = .error (.invalidFilter
             "Operator must be \x27AND\x27, \x27OR\x27, or \x27NOT\x27.")) := by
  have hAND : py_upper "AND" = "AND" := by decide
  have hOR : py_upper "OR" = "OR" := by decide
  have hNOT : py_upper "NOT" = "NOT" := by decide
  rcases hns with h | h <;> rw [Option.isNone_iff_eq_none] at h <;> subst h
  · constructor
    · intro hmem
      have h3 : py_upper o = "AND" ∨ py_upper o = "OR" ∨ py_upper o = "NOT" := by
        simpa using hmem
      rcases h3 with h3 | h3 | h3 <;>
        simp only [build_filter_query, FilterDict.isEmptyDict, FilterDict.field,
          FilterDict.op, FilterDict.value, FilterDict.hasCondKey, FilterDict.conditions,
          Option.getD, Option.isNone, Option.isSome, h3, hAND, hOR, hNOT] <;>
        simp
    · intro hmem
      simp only [build_filter_query, FilterDict.isEmptyDict, FilterDict.field,
        FilterDict.op, FilterDict.value, FilterDict.hasCondKey, FilterDict.conditions,
        Option.getD, Option.isNone, Option.isSome, hmem]
      simp
  · constructor
    · intro hmem
      have h3 : py_upper o = "AND" ∨ py_upper o = "OR" ∨ py_upper o = "NOT" := by
        simpa using hmem
      rcases h3 with h3 | h3 | h3 <;>
        simp only [build_filter_query, FilterDict.isEmptyDict, FilterDict.field,
          FilterDict.op, FilterDict.value, FilterDict.hasCondKey, FilterDict.conditions,
          Option.getD, Option.isNone, Option.isSome, h3, hAND, hOR, hNOT] <;>
        simp
    · intro hmem
      simp only [build_filter_query, FilterDict.isEmptyDict, FilterDict.field,
        FilterDict.op, FilterDict.value, FilterDict.hasCondKey, FilterDict.conditions,
        Option.getD, Option.isNone, Option.isSome, hmem]
      simp

/-- Witness for C8: `"and"` is accepted and compiles as `"AND"`; `"xor"`
is rejected. -/
theorem logic_operator_validation_witness :
    build_filter_query (.mk Option.none (some "and") Option.none true [])
      = build_filter_query (.mk Option.none (some "AND") Option.none true []) ∧
    build_filter_query (.mk Option.none (some "xor") Option.none true [])
      = .error (.invalidFilter
          "Operator must be \x27AND\x27, \x27OR\x27, or \x27NOT\x27.") := by
  constructor
  · have h := (logic_operator_validation Option.none "and" Option.none true []
      (Or.inl rfl)).1 (by decide)
    have hu : py_upper "and" = "AND" := by decide
    rw [hu] at h
    exact h
  · exact (logic_operator_validation Option.none "xor" Option.none true []
      (Or.inl rfl)).2 (by decide)

/-- Claim C10: a Logic filter dict that omits the `operator` key entirely
(but has a `conditions` key) is not a caller error: it compiles exactly
as if its operator were `AND`. -/
theorem missing_operator_defaults_to_and (f : Option String) (v : Option PyValue)
    (conds : List FilterDict) (hns : f.isNone ∨ v.isNone) :
    build_filter_query (.mk f Option.none v true conds)
      = build_filter_query (.mk f (some "AND") v true conds) := by
  have hAND : py_upper "AND" = "AND" := by decide
  rcases hns with h | h <;> rw [Option.isNone_iff_eq_none] at h <;> subst h <;>
    simp only [build_filter_query, FilterDict.isEmptyDict, FilterDict.field,
      FilterDict.op, FilterDict.value, FilterDict.hasCondKey, FilterDict.conditions,
      Option.getD, Option.isNone, Option.isSome, hAND] <;>
    simp

/-- Witness for C10: an operator-less node over two comparisons compiles
identically to the same node with `"AND"`. -/
theorem missing_operator_defaults_to_and_witness :
    build_filter_query (.mk Option.none Option.none Option.none true
        [.mk (some "meta.type") (some "==") (some (.str "article")) false [],
         .mk (some "meta.rating") (some ">=") (some (.int 4)) false []])
      = build_filter_query (.mk Option.none (some "AND") Option.none true
        [.mk (some "meta.type") (some "==") (some (.str "article")) false [],
         .mk (some "meta.rating") (some ">=") (some (.int 4)) false []]) :=
  missing_operator_defaults_to_and Option.none Option.none
    [.mk (some "meta.type") (some "==") (some (.str "article")) false [],
     .mk (some "meta.rating") (some ">=") (some (.int 4)) false []] (Or.inl rfl)

end KuzuStore
